import Mathlib

/-
Verification development for the Ascentrade backend job scheduler and
indicator pipeline (src/tasks.py, src/utils.py, src/indicator_factory.py,
src/indicators/indicators.py).

The Python source is embedded shallowly:
- dataclasses become structures, JSON values become an inductive type,
- fallible operations (file reads, dict-key access) become Option/Except,
- asyncio queue contents become lists (FIFO: enqueue appends at the tail,
  dequeue removes at the head),
- floating point columns are modelled over Rat, with NaN cells modelled as
  none in Option Rat where pandas produces NaN; IEEE special-case outcomes
  (NaN comparisons are False, x/0 limits) are spelled out at each use site.
-/

namespace Ascentrade

/-- Shallow embedding of the dataclass BackgroundJobData (src/tasks.py,
lines 41-72): eight fields timestamp, uuid, table, id1, id2, date1, date2,
data. Optional ints/strings model the fields that default to None; data is
a JSON-object payload modelled as a string-to-string association list. -/
structure BackgroundJobData where
  timestamp : Int
  uuid : String
  table : String
  id1 : Option Int
  id2 : Option Int
  date1 : Option String
  date2 : Option String
  data : List (String × String)
deriving DecidableEq, Repr

/-- JSON values, as produced by json.loads / json.dumps for the jobs.json
backup file. -/
inductive JVal where
  | jnull : JVal
  | jint : Int → JVal
  | jstr : String → JVal
  | jarr : List JVal → JVal
  | jobj : List (String × JVal) → JVal

/-- Encoding of an optional int field by the EnhancedJSONEncoder
(dataclasses.asdict maps None to JSON null). -/
def encOptInt : Option Int → JVal
  | none => .jnull
  | some n => .jint n

/-- Encoding of an optional string field (None becomes JSON null). -/
def encOptStr : Option String → JVal
  | none => .jnull
  | some s => .jstr s

/-- Encoding of the data payload dict as a JSON object. -/
def encData (d : List (String × String)) : JVal :=
  .jobj (d.map (fun kv => (kv.1, JVal.jstr kv.2)))

/-- Shallow embedding of dataclasses.asdict on a BackgroundJobData, as used
by EnhancedJSONEncoder.default (src/tasks.py, lines 109-114) when shutdown
dumps the queue to jobs.json. -/
def asdict (j : BackgroundJobData) : JVal :=
  .jobj [("timestamp", .jint j.timestamp), ("uuid", .jstr j.uuid),
         ("table", .jstr j.table),
         ("id1", encOptInt j.id1), ("id2", encOptInt j.id2),
         ("date1", encOptStr j.date1), ("date2", encOptStr j.date2),
         ("data", encData j.data)]

/-- Decoder for a required int key. -/
def decInt : Option JVal → Option Int
  | some (.jint n) => some n
  | _ => none

/-- Decoder for a required string key. -/
def decStr : Option JVal → Option String
  | some (.jstr s) => some s
  | _ => none

/-- Decoder for an optional int key (JSON null decodes to none). -/
def decOptInt : Option JVal → Option (Option Int)
  | some .jnull => some none
  | some (.jint n) => some (some n)
  | _ => none

/-- Decoder for an optional string key. -/
def decOptStr : Option JVal → Option (Option String)
  | some .jnull => some none
  | some (.jstr s) => some (some s)
  | _ => none

/-- Decoder for one entry of the data payload object. -/
def decDataEntry : String × JVal → Option (String × String)
  | (k, .jstr v) => some (k, v)
  | _ => none

/-- Decoder for the field list of the data payload object: all entries must
decode. -/
def decDataList : List (String × JVal) → Option (List (String × String))
  | [] => some []
  | e :: rest =>
    match decDataEntry e, decDataList rest with
    | some kv, some l => some (kv :: l)
    | _, _ => none

/-- Decoder for the data payload object. -/
def decData : Option JVal → Option (List (String × String))
  | some (.jobj fs) => decDataList fs
  | _ => none

/-- Shallow embedding of BackgroundJobData.fromDict (src/tasks.py, lines
75-86). The Python classmethod reads the eight keys from the dict and
raises KeyError when one is missing; failure (the none result) models that
raised exception. Field values written by this program's own shutdown dump
always decode; a shape mismatch is likewise folded into the failure case. -/
def BackgroundJobData.fromDict (v : JVal) : Option BackgroundJobData :=
  match v with
  | .jobj fs =>
    match decInt (fs.lookup "timestamp"), decStr (fs.lookup "uuid"),
          decStr (fs.lookup "table"),
          decOptInt (fs.lookup "id1"), decOptInt (fs.lookup "id2"),
          decOptStr (fs.lookup "date1"), decOptStr (fs.lookup "date2"),
          decData (fs.lookup "data") with
    | some ts, some u, some t, some i1, some i2, some d1, some d2, some da =>
        some ⟨ts, u, t, i1, i2, d1, d2, da⟩
    | _, _, _, _, _, _, _, _ => none
  | _ => none

/-- State of a TaskHandler (src/tasks.py, lines 117-150) as far as the
shutdown / persistence claims observe it: the stop flag shutdownRequest,
whether the scheduling-loop task has been cancelled, the FIFO job queue
content (head = next job to be dequeued), and the current content of the
jobs.json backup file (none = not yet written by this handler). -/
structure TaskHandlerState where
  shutdownRequest : Bool
  schedulerCancelled : Bool
  jobQueue : List BackgroundJobData
  backupFile : Option JVal

/-- JSON dump of a drained job list, json.dumps(jobs, cls=EnhancedJSONEncoder)
(src/tasks.py, line 217). -/
def dumpJobs (jobs : List BackgroundJobData) : JVal :=
  .jarr (jobs.map asdict)

/-- Inner loop of TaskHandler.loadJobs (src/tasks.py, lines 165-167): put
each decoded job on the queue in file order. A job dict on which fromDict
raises aborts the loop (the exception propagates to the except handler),
but the jobs already enqueued remain on the queue. Returns the queue after
the loop together with true when the loop completed without raising. -/
def loadLoop : List JVal → List BackgroundJobData → List BackgroundJobData × Bool
  | [], queue => (queue, true)
  | v :: rest, queue =>
    match BackgroundJobData.fromDict v with
    | some job => loadLoop rest (queue ++ [job])
    | none => (queue, false)

/-- Shallow embedding of TaskHandler.loadJobs (src/tasks.py, lines 153-177).
The file argument is the result of opening and JSON-parsing jobs.json:
Except.error models a raised exception (missing file or invalid JSON),
caught by the except handler. A parsed value that is null or not a list
takes the warning branch. The function returns the Python return value
(a Bool: True only when the parsed list was non-empty and the enqueue loop
finished without raising) together with the queue after the call. -/
def loadJobs (file : Except Unit JVal) (queue : List BackgroundJobData) :
    Bool × List BackgroundJobData :=
  match file with
  | .error _ => (false, queue)
  | .ok (.jarr []) => (false, queue)
  | .ok (.jarr (v :: vs)) =>
      let r := loadLoop (v :: vs) queue
      (r.2, r.1)
  | .ok _ => (false, queue)

/-- First poll index at which the sampled count is zero, searching at most
fuel+1 polls: the wait loop of TaskHandler.shutdown (src/tasks.py, lines
202-204) sleeps one second per poll while the sampled count is positive.
The fuel bound makes the search total; none models a wait that has not
finished within fuel polls. -/
def firstZeroPoll (bg : Nat → Nat) (fuel : Nat) : Option Nat :=
  (List.range (fuel + 1)).find? (fun t => bg t == 0)

/-- Shallow embedding of TaskHandler.shutdown (src/tasks.py, lines 191-219).
It sets shutdownRequest, cancels the scheduling-loop task, then polls once
per second while len(self.backgroundTasks) > 0; bg t is that sampled length
at poll t. The count of live worker processes
(multiprocessing.active_children()) is passed as workers but never consulted
by the source, which is why the parameter is unused. Once the poll loop
exits, every queued job is dequeued in FIFO order and the list is dumped to
jobs.json, overwriting it. The result carries the poll index at which the
drain ran; none models a shutdown still stuck in the wait loop after fuel
polls. -/
def shutdown (s : TaskHandlerState) (bg workers : Nat → Nat) (fuel : Nat) :
    Option (TaskHandlerState × Nat) :=
  match firstZeroPoll bg fuel with
  | none => none
  | some t =>
      some (⟨true, true, [], some (dumpJobs s.jobQueue)⟩, t)

/-- Shallow embedding of utils.parseInt (src/utils.py, lines 46-65) for an
environment-variable input, which is either absent (None) or a string:
None gives the default, a string is parsed with int() and a parse failure
is caught and gives the default. -/
def parseInt (value : Option String) (default : Int) : Int :=
  match value with
  | none => default
  | some s => (s.toInt?).getD default

/-- Default worker-process count computed in TaskHandler.__init__
(src/tasks.py, lines 132-136): int(multiprocessing.cpu_count()/2.0), which
truncates to floor(cpu/2) for a cpu count n; the fallback 1 is used only
when cpu_count() raises (cpu = none). -/
def defaultParallelProcesses (cpu : Option Nat) : Nat :=
  match cpu with
  | some n => n / 2
  | none => 1

/-- Value of self.parallelProcesses after TaskHandler.__init__ (src/tasks.py,
lines 132-138): the default for the host cpu count, overridden by the
parallelProcesses environment variable via parseInt. -/
def maxParallelWorkers (cpu : Option Nat) (env : Option String) : Int :=
  parseInt env (defaultParallelProcesses cpu)

/-- Sample job used by concrete counterexamples and witnesses. -/
def jobA : BackgroundJobData :=
  ⟨100, "a-1", "quotes", some 1, none, none, none, []⟩

/-- Second sample job used by concrete counterexamples and witnesses. -/
def jobB : BackgroundJobData :=
  ⟨200, "b-2", "quotes", some 2, some 3, some "2024-01-01", none, [("k", "v")]⟩

theorem decDataList_map (da : List (String × String)) :
    decDataList (da.map (fun kv => (kv.1, JVal.jstr kv.2))) = some da := by
  induction da with
  | nil => rfl
  | cons kv rest ih =>
      obtain ⟨k, v⟩ := kv
      simp [decDataList, decDataEntry, ih]

theorem fromDict_asdict (j : BackgroundJobData) :
    BackgroundJobData.fromDict (asdict j) = some j := by
  obtain ⟨ts, u, t, i1, i2, d1, d2, da⟩ := j
  cases i1 <;> cases i2 <;> cases d1 <;> cases d2 <;>
    simp [asdict, BackgroundJobData.fromDict, List.lookup, decInt, decStr,
          decOptInt, decOptStr, encOptInt, encOptStr, decData, encData,
          decDataList_map]

theorem loadLoop_dump (jobs : List BackgroundJobData)
    (queue : List BackgroundJobData) :
    loadLoop (jobs.map asdict) queue = (queue ++ jobs, true) := by
  induction jobs generalizing queue with
  | nil => simp [loadLoop]
  | cons j rest ih =>
      simp [loadLoop, fromDict_asdict, ih]

theorem firstZeroPoll_zero (fuel : Nat) :
    firstZeroPoll (fun _ => 0) fuel = some 0 := by
  unfold firstZeroPoll
  rw [List.range_succ_eq_map]
  simp [List.find?]

/-- C2: the claim says shutdown does not proceed to the queue drain while
the count of live worker processes is positive. Counterexample: with the
sampled backgroundTasks length constantly zero (which is what the source
polls, and that set is never populated anywhere in the repository) and the
live worker-process count constantly 3, shutdown drains the queue already
at poll 0, while the worker count there is 3, not 0. -/
theorem shutdown_while_workers_live_cex :
    shutdown ⟨false, false, [jobA], none⟩ (fun _ => 0) (fun _ => 3) 5
      = some (⟨true, true, [], some (dumpJobs [jobA])⟩, 0)
    ∧ (fun _ : Nat => 3) 0 ≠ 0 := by
  exact ⟨rfl, by decide⟩

/-- C2 (amended): shutdown sets the stop flag, cancels the scheduling loop,
and polls once per second while len(self.backgroundTasks) > 0; since that
set is never populated in this repository the sampled length is always 0
and the drain runs at the first poll, dequeuing every queued job into the
backup file (overwriting it). The count of live worker processes is never
consulted: the result of shutdown is independent of the workers argument. -/
theorem shutdown_drains_on_bg_zero (s : TaskHandlerState)
    (bg w1 w2 : Nat → Nat) (fuel : Nat) :
    shutdown s (fun _ => 0) w1 fuel
      = some (⟨true, true, [], some (dumpJobs s.jobQueue)⟩, 0)
    ∧ shutdown s bg w1 fuel = shutdown s bg w2 fuel := by
  refine ⟨?_, rfl⟩
  simp [shutdown, firstZeroPoll_zero]

/-- C3: the claim says loadPersisted returns the number of jobs restored.
Counterexample: the source function loadJobs returns a Bool, and two backup
files restoring different numbers of jobs (two jobs versus one job) produce
the same return value, so the return value is not the restored count. -/
theorem loadJobs_return_not_count_cex :
    (loadJobs (.ok (.jarr [asdict jobA, asdict jobB])) []).1
      = (loadJobs (.ok (.jarr [asdict jobA])) []).1
    ∧ (loadJobs (.ok (.jarr [asdict jobA, asdict jobB])) []).2.length = 2
    ∧ (loadJobs (.ok (.jarr [asdict jobA])) []).2.length = 1 := by
  exact ⟨rfl, rfl, rfl⟩

/-- C3 (amended): loadJobs re-enqueues the jobs found in the backup file in
their original order and returns a Bool: True exactly when the file parsed
as a non-empty list and every entry deserialized; a missing or malformed
file (a caught exception), a null or non-list value, and an empty list all
yield False without raising, leaving the queue unchanged. -/
theorem loadJobs_reenqueues_in_order (jobs queue : List BackgroundJobData) :
    loadJobs (Except.error ()) queue = (false, queue)
    ∧ loadJobs (.ok .jnull) queue = (false, queue)
    ∧ loadJobs (.ok (.jarr [])) queue = (false, queue)
    ∧ loadJobs (.ok (dumpJobs jobs)) queue = (!jobs.isEmpty, queue ++ jobs) := by
  refine ⟨rfl, rfl, rfl, ?_⟩
  cases jobs with
  | nil => simp [loadJobs, dumpJobs]
  | cons j rest =>
      have h := loadLoop_dump (j :: rest) queue
      simp only [dumpJobs, List.map_cons, loadJobs, List.map] at h ⊢
      simp [h]

/-- C4: the claim says the computed maxParallelWorkers with no override is
half the logical CPU count and at least 1. Counterexample: on a single-CPU
host the source computes int(1/2.0) = 0, so the configured value is 0, not
at least 1 (the fallback 1 applies only when reading the CPU count raises). -/
theorem maxParallelWorkers_single_cpu_cex :
    maxParallelWorkers (some 1) none = 0 := rfl

/-- C4 (amended): with no configuration override, maxParallelWorkers equals
floor(cpuCount / 2) — which is 0 on a single-CPU host — and the value 1 is
used only as the fallback when the CPU count cannot be read. -/
theorem maxParallelWorkers_default_floor (n : Nat) :
    maxParallelWorkers (some n) none = ((n / 2 : Nat) : Int)
    ∧ maxParallelWorkers none none = 1 := by
  exact ⟨rfl, rfl⟩

/-- C5: queuing jobs and calling shutdown() without any dispatch serializes
the still-queued jobs to the backup file in FIFO order; loading that backup
back (loadPersisted on restart) re-enqueues exactly the same
BackgroundJobData records — all eight fields identical — in the original
submission order. -/
theorem shutdown_loadJobs_roundtrip (jobs : List BackgroundJobData)
    (workers : Nat → Nat) (fuel : Nat) :
    shutdown ⟨false, false, jobs, none⟩ (fun _ => 0) workers fuel
      = some (⟨true, true, [], some (dumpJobs jobs)⟩, 0)
    ∧ (loadJobs (.ok (dumpJobs jobs)) []).2 = jobs := by
  constructor
  · simp [shutdown, firstZeroPoll_zero]
  · cases jobs with
    | nil => rfl
    | cons j rest =>
        have h := loadLoop_dump (j :: rest) []
        simp only [dumpJobs, List.map_cons, loadJobs, List.map] at h ⊢
        simp [h]

/-- Python value as it appears in the parameters mapping of an
IndicatorConfig entry (src/indicator_factory.py, parseParameters): a JSON
string, a number (Python int/float/Decimal collapsed to Rat), or any other
value which parseParameters passes through untouched. -/
inductive PyVal where
  | pstr : String → PyVal
  | pnum : Rat → PyVal
  | pother : PyVal
deriving DecidableEq

/-- Shallow embedding of str.isdecimal for the ASCII strings appearing in
indicator configs: true exactly for non-empty strings of decimal digit
characters; a sign, a dot or an exponent makes it false. -/
def isdecimal (s : String) : Bool :=
  !s.data.isEmpty && s.data.all Char.isDigit

/-- Value of decimal.Decimal on an all-digit string, as a rational. -/
def pyDecimal (s : String) : Rat :=
  ((s.data.foldl (fun acc c => acc * 10 + (c.toNat - 48)) 0 : Nat) : Rat)

/-- Shallow embedding of IndicatorFactory.parseParameters
(src/indicator_factory.py, lines 127-146): for each key, a string value
with isdecimal() true becomes Decimal(value); every other value — including
strings that fail isdecimal() — is copied through unchanged. -/
def parseParameters (input : List (String × PyVal)) : List (String × PyVal) :=
  input.map (fun kv =>
    match kv.2 with
    | .pstr s => if isdecimal s then (kv.1, .pnum (pyDecimal s)) else (kv.1, .pstr s)
    | v => (kv.1, v))

/-- C8: the claim says every numeric parameter string is converted to a
numeric value, in particular fractional strings such as "0.02".
Counterexample: str.isdecimal is false for "0.02" (the dot is not a decimal
digit), so parseParameters leaves the value as the string "0.02" rather
than converting it to a number. -/
theorem parseParameters_fractional_cex :
    parseParameters [("af", .pstr "0.02")] = [("af", .pstr "0.02")]
    ∧ isdecimal "0.02" = false := by
  constructor
  · have h : isdecimal "0.02" = false := by decide
    simp [parseParameters, h]
  · decide

/-- C8 (amended): parameter parsing converts a string value to a number
only when str.isdecimal holds of it (a non-empty all-digit string); every
other value — fractional numeric strings such as "0.02" included — is
passed through unchanged, as are non-string values. -/
theorem parseParameters_isdecimal_only (input : List (String × PyVal))
    (i : Nat) (k : String) (v : PyVal) (h : input[i]? = some (k, v)) :
    (parseParameters input)[i]? = some (k,
      match v with
      | .pstr s => if isdecimal s then PyVal.pnum (pyDecimal s) else .pstr s
      | w => w) := by
  simp only [parseParameters, List.getElem?_map, h, Option.map_some']
  cases v <;> simp only [] <;> first
    | rfl
    | (split <;> rfl)

/-- Witness for the C8 amended theorem at a concrete config: the parameters
of a PSAR entry with a decimal period and a fractional af. -/
theorem parseParameters_isdecimal_only_witness :
    (parseParameters [("period", .pstr "14"), ("af", .pstr "0.02")])[1]?
      = some ("af", PyVal.pstr "0.02") := by
  have h := parseParameters_isdecimal_only
    [("period", .pstr "14"), ("af", .pstr "0.02")] 1 "af" (.pstr "0.02") rfl
  have hd : isdecimal "0.02" = false := by decide
  simpa [hd] using h

/-- Shallow embedding of one daily OHLCV row as fetched for the pipeline
(src/indicator_factory.py, the SELECT in calculate /
calculateMultiprocessing): date is an epoch-day number, the price and
volume columns (cast to double precision in the query) are modelled as
rationals. -/
structure Quote where
  date : Nat
  «open» : Rat
  high : Rat
  low : Rat
  close : Rat
  split_adjusted_open : Rat
  split_adjusted_high : Rat
  split_adjusted_low : Rat
  split_adjusted_close : Rat
  adjusted_close : Rat
  volume : Rat
deriving DecidableEq

/-- Interval enum (src/indicator_factory.py, lines 44-49). -/
inductive Interval where
  | daily : Interval
  | weekly : Interval
  | monthly : Interval
deriving DecidableEq

/-- Bucket key of the pandas resample rule 1W (weeks ending Sunday): epoch
day 0 (1970-01-01) was a Thursday and day 3 (1970-01-04) a Sunday, so day d
falls in week (d + 3) / 7. -/
def weekKey (d : Nat) : Nat := (d + 3) / 7

/-- Bucket key of the pandas resample rule ME (calendar month end): the
month index year * 12 + month of an epoch day, by the standard
civil-from-days conversion. -/
def monthKey (d : Nat) : Nat :=
  let z := d + 719468
  let era := z / 146097
  let doe := z % 146097
  let yoe := (doe - doe / 1460 + doe / 36524 - doe / 146096) / 365
  let y := yoe + era * 400
  let doy := doe - (365 * yoe + yoe / 4 - yoe / 100)
  let mp := (5 * doy + 2) / 153
  let m := if mp < 10 then mp + 3 else mp - 9
  let yAdj := if m ≤ 2 then y + 1 else y
  yAdj * 12 + m

/-- Runs of consecutive rows sharing a bucket key, in order; each run is
its first row paired with the remaining rows, so runs are non-empty by
construction. The quotes are fetched ORDER BY date ASC, so the rows of one
calendar bucket are adjacent and the runs are exactly the non-empty
resample buckets. -/
def groupRuns (key : Nat → Nat) : List Quote → List (Quote × List Quote)
  | [] => []
  | q :: rest =>
    match groupRuns key rest with
    | [] => [(q, [])]
    | (h, t) :: gs =>
        if key q.date = key h.date then (q, h :: t) :: gs
        else (q, []) :: (h, t) :: gs

/-- Last row of the non-empty bucket q :: qs. -/
def lastQ (q : Quote) (qs : List Quote) : Quote := qs.getLast?.getD q

/-- Aggregation of one non-empty resample bucket, following the agg mapping
of IndicatorFactory.resampleDataFrame (src/indicator_factory.py, lines
111-123): date last, open first, high max, low min, close last, the
split-adjusted fields analogously, adjusted_close last, volume sum. -/
def aggBucket (q : Quote) (qs : List Quote) : Quote :=
  let l := lastQ q qs
  { date := l.date
  , «open» := q.«open»
  , high := (qs.map Quote.high).foldl max q.high
  , low := (qs.map Quote.low).foldl min q.low
  , close := l.close
  , split_adjusted_open := q.split_adjusted_open
  , split_adjusted_high :=
      (qs.map Quote.split_adjusted_high).foldl max q.split_adjusted_high
  , split_adjusted_low :=
      (qs.map Quote.split_adjusted_low).foldl min q.split_adjusted_low
  , split_adjusted_close := l.split_adjusted_close
  , adjusted_close := l.adjusted_close
  , volume := (qs.map Quote.volume).foldl (· + ·) q.volume }

/-- Resampling by a bucket key: aggregate each non-empty bucket; list
position models the positional reindexing df.index = range(len(df)). -/
def resampleBy (key : Nat → Nat) (rows : List Quote) : List Quote :=
  (groupRuns key rows).map (fun g => aggBucket g.1 g.2)

/-- Shallow embedding of IndicatorFactory.resampleDataFrame
(src/indicator_factory.py, lines 97-125): daily input passes through (the
reindexing is inherent in the list model); weekly and monthly inputs are
grouped on the date column by calendar week (rule 1W) or calendar month
(rule ME) and aggregated. The all-NaN rows pandas materializes for empty
intermediate calendar buckets are not modelled; the claims quantify over
buckets that contain daily rows. -/
def resampleDataFrame (rows : List Quote) : Interval → List Quote
  | .daily => rows
  | .weekly => resampleBy weekKey rows
  | .monthly => resampleBy monthKey rows

theorem le_foldl_max (a : Rat) (l : List Rat) :
    a ≤ l.foldl max a ∧ ∀ x ∈ l, x ≤ l.foldl max a := by
  induction l generalizing a with
  | nil => exact ⟨le_refl a, by simp⟩
  | cons b t ih =>
      obtain ⟨h1, h2⟩ := ih (max a b)
      simp only [List.foldl_cons]
      refine ⟨le_trans (le_max_left a b) h1, ?_⟩
      intro x hx
      rcases List.mem_cons.mp hx with hxb | hxt
      · subst hxb
        exact le_trans (le_max_right a x) h1
      · exact h2 x hxt

theorem foldl_max_mem (a : Rat) (l : List Rat) :
    l.foldl max a = a ∨ l.foldl max a ∈ l := by
  induction l generalizing a with
  | nil => exact Or.inl rfl
  | cons b t ih =>
      rcases ih (max a b) with h | h
      · rcases max_choice a b with hab | hab
        · exact Or.inl (by rw [List.foldl_cons, h, hab])
        · exact Or.inr (by rw [List.foldl_cons, h, hab]; exact List.mem_cons_self b t)
      · exact Or.inr (List.mem_cons_of_mem b h)

theorem foldl_min_le (a : Rat) (l : List Rat) :
    l.foldl min a ≤ a ∧ ∀ x ∈ l, l.foldl min a ≤ x := by
  induction l generalizing a with
  | nil => exact ⟨le_refl a, by simp⟩
  | cons b t ih =>
      obtain ⟨h1, h2⟩ := ih (min a b)
      simp only [List.foldl_cons]
      refine ⟨le_trans h1 (min_le_left a b), ?_⟩
      intro x hx
      rcases List.mem_cons.mp hx with hxb | hxt
      · subst hxb
        exact le_trans h1 (min_le_right a x)
      · exact h2 x hxt

theorem foldl_min_mem (a : Rat) (l : List Rat) :
    l.foldl min a = a ∨ l.foldl min a ∈ l := by
  induction l generalizing a with
  | nil => exact Or.inl rfl
  | cons b t ih =>
      rcases ih (min a b) with h | h
      · rcases min_choice a b with hab | hab
        · exact Or.inl (by rw [List.foldl_cons, h, hab])
        · exact Or.inr (by rw [List.foldl_cons, h, hab]; exact List.mem_cons_self b t)
      · exact Or.inr (List.mem_cons_of_mem b h)

theorem foldl_add_eq_add_sum (a : Rat) (l : List Rat) :
    l.foldl (· + ·) a = a + l.sum := by
  induction l generalizing a with
  | nil => simp
  | cons b t ih => simp [ih, add_assoc]

theorem groupRuns_uniform (key : Nat → Nat) (rows : List Quote) :
    ∀ g ∈ groupRuns key rows, ∀ x ∈ g.1 :: g.2, key x.date = key g.1.date := by
  induction rows with
  | nil => intro g hg; simp [groupRuns] at hg
  | cons q rest ih =>
      intro g hg x hx
      rcases hgr : groupRuns key rest with _ | ⟨⟨h, t⟩, gs⟩
      · rw [groupRuns, hgr] at hg
        simp at hg
        subst hg
        simp at hx
        simp [hx]
      · rw [groupRuns, hgr] at hg
        rw [hgr] at ih
        by_cases hk : key q.date = key h.date
        · simp [hk] at hg
          rcases hg with hg | hg
          · subst hg
            simp only [] at hx
            rcases List.mem_cons.mp hx with hxq | hxm
            · simp [hxq]
            · have := ih (h, t) (List.mem_cons_self _ _) x hxm
              simp at this
              simp [this, ← hk]
          · exact ih g (List.mem_cons_of_mem _ hg) x hx
        · simp [hk] at hg
          rcases hg with hg | hg | hg
          · subst hg; simp at hx; simp [hx]
          · exact ih g (by simp [hg]) x hx
          · exact ih g (List.mem_cons_of_mem _ hg) x hx

/-- Concatenation of grouped runs, to state that the buckets partition the
input rows in order. -/
def joinRuns (gs : List (Quote × List Quote)) : List Quote :=
  gs.foldr (fun g acc => g.1 :: (g.2 ++ acc)) []

theorem groupRuns_join (key : Nat → Nat) (rows : List Quote) :
    joinRuns (groupRuns key rows) = rows := by
  induction rows with
  | nil => rfl
  | cons q rest ih =>
      rcases hgr : groupRuns key rest with _ | ⟨⟨h, t⟩, gs⟩
      · rw [hgr] at ih
        have hrest : rest = [] := by simpa [joinRuns] using ih.symm
        rw [groupRuns, hgr]
        simp [joinRuns, hrest]
      · rw [hgr] at ih
        rw [groupRuns, hgr]
        by_cases hk : key q.date = key h.date
        · simp only [hk, if_true]
          simp only [joinRuns, List.foldr] at ih ⊢
          rw [← ih] <;> simp
        · simp only [hk, if_false]
          simp only [joinRuns, List.foldr] at ih ⊢
          rw [← ih] <;> simp

/-- C6: for every bucket key (in particular the weekly key of rule 1W and
the monthly key of rule ME) and every non-empty bucket (q, qs) produced by
grouping the daily rows, the resampled row at the same position has open =
the bucket's first open, high = the max daily high (attained and an upper
bound), low = the min daily low, close / split_adjusted_close /
adjusted_close = the last row's values, volume = the sum of volumes, the
split-adjusted open/high/low aggregated analogously, and date = the last
date of the bucket; the output frame has one row per bucket, positionally
indexed (the list position), all bucket rows share the bucket key, and the
buckets concatenate back to the input rows; resampleDataFrame applies this
grouping with weekKey for Interval.weekly and monthKey for
Interval.monthly. -/
theorem resample_bucket_agg (key : Nat → Nat) (rows : List Quote) (i : Nat)
    (q : Quote) (qs : List Quote)
    (h : (groupRuns key rows)[i]? = some (q, qs)) :
    (resampleBy key rows)[i]? = some (aggBucket q qs)
    ∧ (resampleBy key rows).length = (groupRuns key rows).length
    ∧ (aggBucket q qs).«open» = q.«open»
    ∧ ((aggBucket q qs).high ∈ (q :: qs).map Quote.high
        ∧ ∀ x ∈ (q :: qs).map Quote.high, x ≤ (aggBucket q qs).high)
    ∧ ((aggBucket q qs).low ∈ (q :: qs).map Quote.low
        ∧ ∀ x ∈ (q :: qs).map Quote.low, (aggBucket q qs).low ≤ x)
    ∧ (aggBucket q qs).close = (lastQ q qs).close
    ∧ (aggBucket q qs).volume = ((q :: qs).map Quote.volume).sum
    ∧ (aggBucket q qs).split_adjusted_open = q.split_adjusted_open
    ∧ ((aggBucket q qs).split_adjusted_high
          ∈ (q :: qs).map Quote.split_adjusted_high
        ∧ ∀ x ∈ (q :: qs).map Quote.split_adjusted_high,
            x ≤ (aggBucket q qs).split_adjusted_high)
    ∧ ((aggBucket q qs).split_adjusted_low
          ∈ (q :: qs).map Quote.split_adjusted_low
        ∧ ∀ x ∈ (q :: qs).map Quote.split_adjusted_low,
            (aggBucket q qs).split_adjusted_low ≤ x)
    ∧ (aggBucket q qs).split_adjusted_close = (lastQ q qs).split_adjusted_close
    ∧ (aggBucket q qs).adjusted_close = (lastQ q qs).adjusted_close
    ∧ (aggBucket q qs).date = (lastQ q qs).date
    ∧ (∀ x ∈ q :: qs, key x.date = key q.date)
    ∧ joinRuns (groupRuns key rows) = rows
    ∧ resampleDataFrame rows Interval.weekly = resampleBy weekKey rows
    ∧ resampleDataFrame rows Interval.monthly = resampleBy monthKey rows := by
  have hmem : (q, qs) ∈ groupRuns key rows := by
    exact List.getElem?_mem h
  refine ⟨?_, ?_, rfl, ⟨?_, ?_⟩, ⟨?_, ?_⟩, rfl, ?_, rfl, ⟨?_, ?_⟩, ⟨?_, ?_⟩,
    rfl, rfl, rfl, ?_, groupRuns_join key rows, rfl, rfl⟩
  · simp [resampleBy, List.getElem?_map, h]
  · simp [resampleBy]
  · show (qs.map Quote.high).foldl max q.high ∈ (q :: qs).map Quote.high
    rcases foldl_max_mem q.high (qs.map Quote.high) with hm | hm
    · rw [hm]; exact List.mem_map_of_mem Quote.high (List.mem_cons_self q qs)
    · simp only [List.map_cons]
      exact List.mem_cons_of_mem _ hm
  · intro x hx
    simp only [List.map_cons] at hx
    rcases List.mem_cons.mp hx with hxq | hxm
    · exact hxq ▸ (le_foldl_max q.high (qs.map Quote.high)).1
    · exact (le_foldl_max q.high (qs.map Quote.high)).2 x hxm
  · show (qs.map Quote.low).foldl min q.low ∈ (q :: qs).map Quote.low
    rcases foldl_min_mem q.low (qs.map Quote.low) with hm | hm
    · rw [hm]; exact List.mem_map_of_mem Quote.low (List.mem_cons_self q qs)
    · simp only [List.map_cons]
      exact List.mem_cons_of_mem _ hm
  · intro x hx
    simp only [List.map_cons] at hx
    rcases List.mem_cons.mp hx with hxq | hxm
    · exact hxq ▸ (foldl_min_le q.low (qs.map Quote.low)).1
    · exact (foldl_min_le q.low (qs.map Quote.low)).2 x hxm
  · show (qs.map Quote.volume).foldl (· + ·) q.volume
        = ((q :: qs).map Quote.volume).sum
    rw [foldl_add_eq_add_sum]
    simp
  · show (qs.map Quote.split_adjusted_high).foldl max q.split_adjusted_high
        ∈ (q :: qs).map Quote.split_adjusted_high
    rcases foldl_max_mem q.split_adjusted_high
        (qs.map Quote.split_adjusted_high) with hm | hm
    · rw [hm]
      exact List.mem_map_of_mem Quote.split_adjusted_high
        (List.mem_cons_self q qs)
    · simp only [List.map_cons]
      exact List.mem_cons_of_mem _ hm
  · intro x hx
    simp only [List.map_cons] at hx
    rcases List.mem_cons.mp hx with hxq | hxm
    · exact hxq ▸ (le_foldl_max q.split_adjusted_high
        (qs.map Quote.split_adjusted_high)).1
    · exact (le_foldl_max q.split_adjusted_high
        (qs.map Quote.split_adjusted_high)).2 x hxm
  · show (qs.map Quote.split_adjusted_low).foldl min q.split_adjusted_low
        ∈ (q :: qs).map Quote.split_adjusted_low
    rcases foldl_min_mem q.split_adjusted_low
        (qs.map Quote.split_adjusted_low) with hm | hm
    · rw [hm]
      exact List.mem_map_of_mem Quote.split_adjusted_low
        (List.mem_cons_self q qs)
    · simp only [List.map_cons]
      exact List.mem_cons_of_mem _ hm
  · intro x hx
    simp only [List.map_cons] at hx
    rcases List.mem_cons.mp hx with hxq | hxm
    · exact hxq ▸ (foldl_min_le q.split_adjusted_low
        (qs.map Quote.split_adjusted_low)).1
    · exact (foldl_min_le q.split_adjusted_low
        (qs.map Quote.split_adjusted_low)).2 x hxm
  · intro x hx
    have := groupRuns_uniform key rows (q, qs) hmem x
    simpa using this hx

/-- Daily quote used in concrete resampling witnesses: day 0 (Thursday
1970-01-01). -/
def wq0 : Quote := ⟨0, 10, 11, 9, 10, 10, 11, 9, 10, 10, 100⟩

/-- Daily quote used in concrete resampling witnesses: day 1, same ISO week
as wq0. -/
def wq1 : Quote := ⟨1, 20, 21, 19, 20, 20, 21, 19, 20, 20, 200⟩

/-- Daily quote used in concrete resampling witnesses: day 4 (Monday
1970-01-05), the following ISO week. -/
def wq2 : Quote := ⟨4, 30, 31, 29, 30, 30, 31, 29, 30, 30, 300⟩

/-- Witness for C6 at a concrete three-day series spanning two ISO weeks:
the first weekly bucket is (wq0, [wq1]) and its aggregated row has open 10,
high 21, low 9, close 20, volume 300, date 1. -/
theorem resample_bucket_agg_witness :
    (groupRuns weekKey [wq0, wq1, wq2])[0]? = some (wq0, [wq1])
    ∧ (resampleBy weekKey [wq0, wq1, wq2])[0]? = some (aggBucket wq0 [wq1])
    ∧ aggBucket wq0 [wq1] = ⟨1, 10, 21, 9, 20, 10, 21, 9, 20, 20, 300⟩ := by
  refine ⟨rfl, (resample_bucket_agg weekKey [wq0, wq1, wq2] 0 wq0 [wq1]
    rfl).1, ?_⟩
  norm_num [aggBucket, lastQ, wq0, wq1, max_def, min_def]

/-- Column cell of a pandas float column: none models NaN. -/
abbrev Cell := Option Rat

/-- Comparison cell > 0.0 under IEEE semantics: a NaN cell compares False. -/
def gtZeroCell : Cell → Bool
  | some v => decide (0 < v)
  | none => false

/-- Shallow embedding of df[source].diff(): row 0 is NaN, row i ≥ 1 is
row i minus row i-1, NaN when either operand is NaN. -/
def diffCol (s : List Cell) : List Cell :=
  (List.range s.length).map (fun i =>
    match i with
    | 0 => none
    | Nat.succ j =>
        match s[j]?, s[i]? with
        | some (some p), some (some c) => some (c - p)
        | _, _ => none)

/-- Shallow embedding of the Slope indicator (src/indicators/indicators.py,
lines 346-363): the added slope column is df[source].diff() > 0 — a boolean
column, False wherever the diff is NaN, in particular at row 0 — and the
success flag is True (the except branch is unreachable here because the
source column is passed by value). -/
def Slope (source : List Cell) : Bool × List (Option Bool) :=
  (true, (diffCol source).map (fun c => some (gtZeroCell c)))

/-- Sum of a cell window; NaN when any cell is NaN (pandas rolling mean
with the default min_periods equal to the window size). -/
def sumCells : List Cell → Option Rat
  | [] => some 0
  | none :: _ => none
  | some v :: cs => (sumCells cs).map (fun s => v + s)

/-- Shallow embedding of df[source].rolling(N).mean(): NaN for the first
N-1 rows, then the mean of the N-cell window ending at the row, NaN when
the window contains a NaN. -/
def rollingMean (n : Nat) (xs : List Cell) : List Cell :=
  (List.range xs.length).map (fun i =>
    if i + 1 < n then none
    else (sumCells ((xs.take (i + 1)).drop (i + 1 - n))).map (fun s => s / n))

/-- Boolean cell of s.pct_change(fill_method=None) > 0.0 for one pair of
adjacent cells: False when either cell is NaN (a NaN comparison); when the
previous value is 0 the IEEE quotient is an infinity (or NaN for 0/0), and
cur/0 - 1 > 0 holds exactly when cur > 0; otherwise cur/prev - 1 > 0. -/
def pctChangePos : Cell → Cell → Bool
  | some p, some c =>
      if p = 0 then decide (0 < c) else decide (0 < c / p - 1)
  | _, _ => false

/-- Boolean cell of s.pct_change(fill_method=None) > 0.0 at row i: row 0 is
False (NaN pct_change), row i ≥ 1 compares to the prior row. -/
def risingAt (s : List Cell) : Nat → Bool
  | 0 => false
  | Nat.succ j =>
      match s[j]?, s[j + 1]? with
      | some p, some c => pctChangePos p c
      | _, _ => false

/-- Boolean column s.pct_change(fill_method=None) > 0.0. -/
def risingCol (s : List Cell) : List Bool :=
  (List.range s.length).map (risingAt s)

/-- Shallow embedding of SimpleMovingAverage (src/indicators/indicators.py,
lines 29-55): with N = int(period), when len(df) > N the added sma column
is the rolling N mean of the source and the added rising column is
sma.pct_change() > 0 (a boolean column, wrapped in some); otherwise both
added columns are all null. The success flag is True in both branches. -/
def SimpleMovingAverage (source : List Cell) (n : Nat) :
    Bool × (List Cell × List (Option Bool)) :=
  if source.length > n then
    (true, (rollingMean n source, (risingCol (rollingMean n source)).map some))
  else
    (true, (List.replicate source.length none,
            List.replicate source.length none))

theorem getElem?_range_map {α : Type} (f : Nat → α) (len i : Nat) :
    ((List.range len).map f)[i]? = if i < len then some (f i) else none := by
  rcases Nat.lt_or_ge i len with h | h
  · rw [List.getElem?_map, List.getElem?_range h, if_pos h]
    rfl
  · rw [List.getElem?_map, if_neg (Nat.not_lt.mpr h),
        List.getElem?_eq_none (by simpa using h)]
    rfl

/-- C10: boolean columns derived from a day-over-day change are False, not
null, where the prior value does not exist: the Slope column is False at
row 0 of every non-empty frame, and the rising flag of SimpleMovingAverage
is False at the first row where the moving average is defined. -/
theorem undefined_change_is_false (xs ys : List Cell) (n i : Nat) (v : Rat)
    (hxs : xs ≠ []) (hlen : ys.length > n)
    (hdef : (rollingMean n ys)[i]? = some (some v))
    (hfirst : ∀ j < i, ∀ w : Rat, (rollingMean n ys)[j]? ≠ some (some w)) :
    (Slope xs).2[0]? = some (some false)
    ∧ ((SimpleMovingAverage ys n).2.2)[i]? = some (some false) := by
  have hi : i < (rollingMean n ys).length := by
    by_contra hc
    rw [List.getElem?_eq_none (Nat.not_lt.mp hc)] at hdef
    exact absurd hdef (by simp)
  constructor
  · have hx0 : 0 < xs.length := List.length_pos.mpr hxs
    simp only [Slope, diffCol, List.getElem?_map, List.getElem?_range hx0]
    rfl
  · simp only [SimpleMovingAverage, if_pos hlen, risingCol,
               List.getElem?_map, List.getElem?_range hi, Option.map_some]
    cases i with
    | zero => rfl
    | succ j =>
        have hj : j < (rollingMean n ys).length := Nat.lt_of_succ_lt hi
        obtain ⟨c, hc⟩ : ∃ c, (rollingMean n ys)[j]? = some c :=
          ⟨(rollingMean n ys)[j], List.getElem?_eq_getElem hj⟩
        have hcnone : c = none := by
          rcases c with _ | w
          · rfl
          · exact absurd hc (hfirst j (Nat.lt_succ_self j) w)
        subst hcnone
        simp only [Option.map_some', risingAt, hc, hdef]
        rfl

/-- Witness for C10 at a concrete frame: slope source [5, 7], sma source
[1, 2, 3] with period 2; the sma is first defined at row 1 and both boolean
cells are False. -/
theorem undefined_change_is_false_witness :
    ([some 5, some 7] : List Cell) ≠ []
    ∧ ([some 1, some 2, some 3] : List Cell).length > 2
    ∧ (rollingMean 2 [some 1, some 2, some 3])[1]? = some (some (3 / 2))
    ∧ (Slope [some 5, some 7]).2[0]? = some (some false)
    ∧ ((SimpleMovingAverage [some 1, some 2, some 3] 2).2.2)[1]?
        = some (some false) := by
  have hrm : rollingMean 2 [some 1, some 2, some 3]
      = [none, some (3 / 2), some (5 / 2)] := by
    norm_num [rollingMean, List.range_succ, sumCells]
  have hdef : (rollingMean 2 [some 1, some 2, some 3])[1]? =
      some (some (3 / 2)) := by rw [hrm]; rfl
  have hfirst : ∀ j < 1, ∀ w : Rat,
      (rollingMean 2 [some 1, some 2, some 3])[j]? ≠ some (some w) := by
    intro j hj w
    interval_cases j
    rw [hrm]
    simp
  have h := undefined_change_is_false [some 5, some 7] [some 1, some 2, some 3]
    2 1 (3 / 2) (by simp) (by norm_num) hdef hfirst
  exact ⟨by simp, by norm_num, hdef, h.1, h.2⟩

/-- Positive part of a price change, df.change.mask(df.change < 0, 0.0)
(src/indicators/indicators.py, line 141). -/
def gainOf (d : Rat) : Rat := if d < 0 then 0 else d

/-- Negative part (as a non-negative number) of a price change,
-df.change.mask(df.change > 0, -0.0) (src/indicators/indicators.py,
line 142). -/
def lossOf (d : Rat) : Rat := if 0 < d then 0 else -d

/-- Day-over-day differences of the source column, df[source].diff()
without the leading NaN: element j is xs[j+1] - xs[j]. -/
def diffs (xs : List Rat) : List Rat :=
  List.zipWith (fun a b => a - b) xs.tail xs

/-- Wilder moving average (the rma helper inside RSI,
src/indicators/indicators.py, lines 144-149) over the gain or loss series
d: index k here corresponds to array index n + k of rma's output; the seed
is the simple mean of the first n entries of d (x[1:n+1], the first n
defined diffs) and each later value blends the prior average with the next
entry weighted by 1/n. -/
def rma (n : Nat) (d : List Rat) : Nat → Rat
  | 0 => (d.take n).sum / n
  | k + 1 => (rma n d k * ((n : Rat) - 1) + d.getD (n + k) 0) / n

/-- RSI cell at row i of a frame whose source column is xs, for period n
(src/indicators/indicators.py, lines 140-155): NaN (none) for i < n, where
the Wilder averages are NaN; otherwise rs = avg_gain / avg_loss and
rsi = 100 - 100 / (1 + rs), spelling out the IEEE outcomes of the float
division: avg_loss = 0 with avg_gain = 0 gives rs = 0/0 = NaN and a NaN
rsi (none); avg_loss = 0 with avg_gain positive gives rs = +inf and
rsi = 100 - 100/inf = 100. -/
def rsiAt (xs : List Rat) (n i : Nat) : Option Rat :=
  if i < n ∨ xs.length ≤ i then none
  else if rma n ((diffs xs).map lossOf) (i - n) = 0 then
    (if rma n ((diffs xs).map gainOf) (i - n) = 0 then none else some 100)
  else
    some (100 - 100 / (1 + rma n ((diffs xs).map gainOf) (i - n)
      / rma n ((diffs xs).map lossOf) (i - n)))

/-- Shallow embedding of the RSI indicator (src/indicators/indicators.py,
lines 126-171): with N = int(period), when len(df) > N the added rsi
column holds the rsiAt cell per row; otherwise the column is all null. The
success flag is True in both branches. -/
def RSI (xs : List Rat) (n : Nat) : Bool × List (Option Rat) :=
  if xs.length > n then
    (true, (List.range xs.length).map (fun i => rsiAt xs n i))
  else
    (true, List.replicate xs.length none)

theorem gainOf_nonneg (d : Rat) : 0 ≤ gainOf d := by
  unfold gainOf
  split
  · exact le_refl 0
  · linarith [not_lt.mp (by assumption : ¬ d < 0)]

theorem lossOf_nonneg (d : Rat) : 0 ≤ lossOf d := by
  unfold lossOf
  split
  · exact le_refl 0
  · linarith [not_lt.mp (by assumption : ¬ 0 < d)]

theorem rma_nonneg (n : Nat) (d : List Rat) (k : Nat) (hn : 1 ≤ n)
    (hd : ∀ x ∈ d, 0 ≤ x) : 0 ≤ rma n d k := by
  induction k with
  | zero =>
      apply div_nonneg
      · exact List.sum_nonneg (fun x hx => hd x (List.mem_of_mem_take hx))
      · exact_mod_cast Nat.zero_le n
  | succ k ih =>
      apply div_nonneg
      · have h1 : (0:Rat) ≤ (n : Rat) - 1 := by
          have : (1:Rat) ≤ (n : Rat) := by exact_mod_cast hn
          linarith
        have h2 : 0 ≤ d.getD (n + k) 0 := by
          rcases hgd : d[n + k]? with _ | x
          · simp [List.getD, hgd]
          · have hx : x ∈ d := List.getElem?_mem hgd
            simpa [List.getD, hgd] using hd x hx
        have h3 : 0 ≤ rma n d k * ((n : Rat) - 1) := mul_nonneg ih h1
        linarith
      · exact_mod_cast Nat.zero_le n

/-- C7: every defined RSI value produced by the RSI indicator lies in
[0, 100]. The 0/0 Wilder-average case yields a NaN cell, not a defined
value, and rows before the period or beyond the frame are NaN/absent;
every cell that carries a number v satisfies 0 ≤ v ≤ 100. -/
theorem RSI_in_range (xs : List Rat) (n i : Nat) (v : Rat) (hn : 1 ≤ n)
    (h : ((RSI xs n).2)[i]? = some (some v)) : 0 ≤ v ∧ v ≤ 100 := by
  by_cases hlen : xs.length > n
  · rw [RSI, if_pos hlen] at h
    simp only [getElem?_range_map] at h
    by_cases hi : i < xs.length
    · rw [if_pos hi] at h
      by_cases hg : i < n ∨ xs.length ≤ i
      · rw [rsiAt, if_pos hg] at h
        exact absurd h (by simp)
      · rw [rsiAt, if_neg hg] at h
        have hag : 0 ≤ rma n ((diffs xs).map gainOf) (i - n) :=
          rma_nonneg n _ (i - n) hn (by
            intro x hx
            obtain ⟨d, _, rfl⟩ := List.mem_map.mp hx
            exact gainOf_nonneg d)
        have hal : 0 ≤ rma n ((diffs xs).map lossOf) (i - n) :=
          rma_nonneg n _ (i - n) hn (by
            intro x hx
            obtain ⟨d, _, rfl⟩ := List.mem_map.mp hx
            exact lossOf_nonneg d)
        by_cases hz : rma n ((diffs xs).map lossOf) (i - n) = 0
        · rw [if_pos hz] at h
          by_cases hza : rma n ((diffs xs).map gainOf) (i - n) = 0
          · rw [if_pos hza] at h
            exact absurd h (by simp)
          · rw [if_neg hza] at h
            have hv : (100 : Rat) = v := by
              have := Option.some.inj h
              exact Option.some.inj this
            constructor <;> rw [← hv] <;> norm_num
        · rw [if_neg hz] at h
          have hv : 100 - 100 / (1 + rma n ((diffs xs).map gainOf) (i - n)
              / rma n ((diffs xs).map lossOf) (i - n)) = v := by
            have := Option.some.inj h
            exact Option.some.inj this
          have hpos : (0:Rat) < rma n ((diffs xs).map lossOf) (i - n) :=
            lt_of_le_of_ne hal (Ne.symm hz)
          have hrs : 0 ≤ rma n ((diffs xs).map gainOf) (i - n)
              / rma n ((diffs xs).map lossOf) (i - n) :=
            div_nonneg hag (le_of_lt hpos)
          have h1 : (0:Rat) < 1 + rma n ((diffs xs).map gainOf) (i - n)
              / rma n ((diffs xs).map lossOf) (i - n) := by linarith
          have h2 : 100 / (1 + rma n ((diffs xs).map gainOf) (i - n)
              / rma n ((diffs xs).map lossOf) (i - n)) ≤ 100 :=
            div_le_self (by norm_num) (by linarith)
          have h3 : 0 < 100 / (1 + rma n ((diffs xs).map gainOf) (i - n)
              / rma n ((diffs xs).map lossOf) (i - n)) :=
            div_pos (by norm_num) h1
          constructor <;> linarith
    · rw [if_neg hi] at h
      exact absurd h (by simp)
  · rw [RSI, if_neg hlen] at h
    rcases Nat.lt_or_ge i xs.length with hi | hi
    · rw [List.getElem?_replicate, if_pos hi] at h
      exact absurd h (by simp)
    · rw [List.getElem?_replicate, if_neg (Nat.not_lt.mpr hi)] at h
      exact absurd h (by simp)

/-- Witness for C7 at the concrete series [1, 2, 1, 2] with period 2: the
cell at row 2 is the defined value 50, which lies in [0, 100]. -/
theorem RSI_in_range_witness :
    (1 ≤ 2)
    ∧ ((RSI [(1:Rat), 2, 1, 2] 2).2)[2]? = some (some 50)
    ∧ (0 ≤ (50:Rat) ∧ (50:Rat) ≤ 100) := by
  have hr : rsiAt [(1:Rat), 2, 1, 2] 2 2 = some 50 := by
    have hd : diffs [(1:Rat), 2, 1, 2] = [1, -1, 1] := by
      norm_num [diffs]
    rw [rsiAt]
    rw [if_neg (by norm_num)]
    rw [hd]
    norm_num [rma, gainOf, lossOf]
  have h : ((RSI [(1:Rat), 2, 1, 2] 2).2)[2]? = some (some 50) := by
    rw [RSI, if_pos (by norm_num)]
    rw [getElem?_range_map, if_pos (by norm_num), hr]
  exact ⟨by norm_num, h, RSI_in_range [(1:Rat), 2, 1, 2] 2 2 50 (by norm_num) h⟩

/-- Data frame for the indicator loop: an ordered map from column name to
column of nullable cells. -/
abbrev Frame := List (String × List Cell)

/-- One configured entry of indicators.json as the pipeline loop sees it
(src/indicator_factory.py, lines 185-198 and 256-270): the timeframe index
(0 daily, 1 weekly, 2 monthly, the value of intervalFromStr(...).value),
the indicator function resolved by name from globals() — with its parsed
parameters already applied, so it maps a frame to (success, frame, added
keys) — and the output column mapping. -/
structure IndicatorEntry where
  interval : Fin 3
  run : Frame → Bool × Frame × List String
  mapping : List (String × String)

/-- df.drop([k], axis=1). -/
def dropCol (df : Frame) (k : String) : Frame :=
  df.filter (fun c => c.1 ≠ k)

/-- df.rename(columns=mapping): mapped names replaced, others kept. -/
def renameCols (df : Frame) (m : List (String × String)) : Frame :=
  df.map (fun c =>
    match m.lookup c.1 with
    | some nn => (nn, c.2)
    | none => c)

/-- The per-entry cleanup loop: for k in keys, if k not in mapping, drop k
(src/indicator_factory.py, lines 192-194 / 263-265). -/
def dropUnmapped (df : Frame) (keys : List String)
    (m : List (String × String)) : Frame :=
  keys.foldl (fun d k => if (m.lookup k).isSome then d else dropCol d k) df

/-- dfs[i] = df. -/
def setFrame (dfs : Fin 3 → Frame) (i : Fin 3) (df : Frame) :
    Fin 3 → Frame :=
  fun j => if j = i then df else dfs j

/-- One iteration of the configured-indicator loop, shared by both pipeline
variants: run the entry's indicator on its timeframe's frame; on success
drop the unmapped added keys, rename per the mapping and store the frame
back. On failure the source's else branch does not reassign dfs[interval],
but the Python df it passed in aliases dfs[interval] and every indicator's
except branch null-fills its output columns in place on that object
(df[k] = None, e.g. src/indicators/indicators.py lines 53-54, 121-122,
259-260), so the frame dfs[interval] holds after a failure is the one the
indicator returned — null placeholder columns present under their raw
names, with no drop and no rename applied. The embedding makes that
mutation-through-alias visible by storing the returned frame back in the
failure branch too. The Bool reports success. -/
def applyEntry (dfs : Fin 3 → Frame) (e : IndicatorEntry) :
    (Fin 3 → Frame) × Bool :=
  let r := e.run (dfs e.interval)
  if r.1 then
    (setFrame dfs e.interval
      (renameCols (dropUnmapped r.2.1 r.2.2 e.mapping) e.mapping), true)
  else
    (setFrame dfs e.interval r.2.1, false)

/-- Indicator loop of IndicatorFactory.calculate (src/indicator_factory.py,
lines 185-198): a failing indicator logs a warning — counted here — and
the loop continues with the next configured entry. -/
def calcLoop :
    List IndicatorEntry → (Fin 3 → Frame) → Nat → (Fin 3 → Frame) × Nat
  | [], dfs, w => (dfs, w)
  | e :: rest, dfs, w =>
      let r := applyEntry dfs e
      calcLoop rest r.1 (if r.2 then w else w + 1)

/-- Indicator loop of IndicatorFactory.calculateMultiprocessing
(src/indicator_factory.py, lines 256-270): the first failing indicator
logs a warning and makes the whole function return False immediately; the
none result models that early return. -/
def calcLoopMP : List IndicatorEntry → (Fin 3 → Frame) → Option (Fin 3 → Frame)
  | [], dfs => some dfs
  | e :: rest, dfs =>
      let r := applyEntry dfs e
      if r.2 then calcLoopMP rest r.1 else none

/-- Shared OHLCV columns stripped before the merge (src/indicator_factory.py,
line 204 / 276). -/
def sharedCols : List String :=
  ["date", "open", "high", "low", "close", "split_adjusted_open",
   "split_adjusted_high", "split_adjusted_low", "split_adjusted_close",
   "adjusted_close", "volume"]

/-- Conversion of fetched quote rows to the column frame the indicator
functions receive; the date column carries the epoch day as a number. -/
def toFrame (rows : List Quote) : Frame :=
  [("date", rows.map (fun q => some ((q.date : Rat)))),
   ("open", rows.map (fun q => some q.«open»)),
   ("high", rows.map (fun q => some q.high)),
   ("low", rows.map (fun q => some q.low)),
   ("close", rows.map (fun q => some q.close)),
   ("split_adjusted_open", rows.map (fun q => some q.split_adjusted_open)),
   ("split_adjusted_high", rows.map (fun q => some q.split_adjusted_high)),
   ("split_adjusted_low", rows.map (fun q => some q.split_adjusted_low)),
   ("split_adjusted_close", rows.map (fun q => some q.split_adjusted_close)),
   ("adjusted_close", rows.map (fun q => some q.adjusted_close)),
   ("volume", rows.map (fun q => some q.volume))]

/-- dfs[i].drop(shared columns, axis=1). -/
def dropShared (df : Frame) : Frame :=
  df.filter (fun c => !(sharedCols.contains c.1))

/-- dfs[i].iloc[-1].to_dict() — the last row as a keyed record; the
replace({np.nan: None}) step is inherent in the Option cells. -/
def lastRowDict (df : Frame) : List (String × Cell) :=
  df.map (fun c => (c.1, (c.2.getLast?).getD none))

/-- data.update(...) for one key: overwrite an existing key in place or
append a new one. -/
def dictUpdate (d : List (String × Cell)) (kv : String × Cell) :
    List (String × Cell) :=
  if d.any (fun e => e.1 == kv.1) then
    d.map (fun e => if e.1 == kv.1 then (e.1, kv.2) else e)
  else d ++ [kv]

/-- data.update(d2) over every key of d2. -/
def dictUpdateAll (d d2 : List (String × Cell)) : List (String × Cell) :=
  d2.foldl dictUpdate d

/-- The merged indicator record: the last rows of the three frames, shared
OHLCV columns stripped, merged in timeframe order (later frames overwrite
equal keys), as in src/indicator_factory.py lines 272-278. -/
def mergedData (dfs : Fin 3 → Frame) : List (String × Cell) :=
  dictUpdateAll (dictUpdateAll (lastRowDict (dropShared (dfs 0)))
    (lastRowDict (dropShared (dfs 1)))) (lastRowDict (dropShared (dfs 2)))

/-- Last value of the daily date column after the loop
(np.datetime_as_string(dfs[0]['date'].values[-1]), line 274). -/
def lastDate (df : Frame) : Option Rat :=
  match df.lookup "date" with
  | some col => (col.getLast?).getD none
  | none => none

/-- One upsert into the indicators table, keyed by (security, date). -/
structure WriteRow where
  security : Int
  date : Option Rat
  data : List (String × Cell)

/-- Shallow embedding of IndicatorFactory.calculateMultiprocessing
(src/indicator_factory.py, lines 218-299), given the fetched ordered
quotes and the configured entries: fewer than 10 rows returns True without
writing; otherwise the three frames are built, the indicator loop runs —
aborting with (False, no write) at the first failing indicator — and on
success exactly one merged row keyed by the last daily date is upserted. -/
def calculateMultiprocessing (secId : Int) (quotes : List Quote)
    (entries : List IndicatorEntry) : Bool × Option WriteRow :=
  if quotes.length < 10 then (true, none)
  else
    let dfs : Fin 3 → Frame := fun i =>
      if i = 0 then toFrame quotes
      else if i = 1 then toFrame (resampleDataFrame quotes Interval.weekly)
      else toFrame (resampleDataFrame quotes Interval.monthly)
    match calcLoopMP entries dfs with
    | none => (false, none)
    | some dfs2 => (true, some ⟨secId, lastDate (dfs2 0), mergedData dfs2⟩)

/-- Shallow embedding of the async IndicatorFactory.calculate
(src/indicator_factory.py, lines 148-215): identical shape, but a failing
indicator only logs and the loop continues; the success flag of the final
forceUpdateEntries upsert is abstracted as True (the database collaborator
is external to this subsystem). -/
def calculate (secId : Int) (quotes : List Quote)
    (entries : List IndicatorEntry) : Bool × Option WriteRow :=
  if quotes.length < 10 then (true, none)
  else
    let dfs : Fin 3 → Frame := fun i =>
      if i = 0 then toFrame quotes
      else if i = 1 then toFrame (resampleDataFrame quotes Interval.weekly)
      else toFrame (resampleDataFrame quotes Interval.monthly)
    let r := calcLoop entries dfs 0
    (true, some ⟨secId, lastDate (r.1 0), mergedData r.1⟩)

/-- Indicator entry that always fails, null-filling its output column on
the frame as the source indicators' except branches do (df[k] = None), for
concrete counterexamples. -/
def eFail : IndicatorEntry :=
  ⟨0, fun df => (false, ("failcol", [none]) :: df, ["failcol"]), []⟩

/-- Indicator entry that succeeds and adds a marker column, mapped to
marker_out, for concrete counterexamples. -/
def eMark : IndicatorEntry :=
  ⟨0, fun df => (true, ("marker", [some 1]) :: df, ["marker"]),
   [("marker", "marker_out")]⟩

/-- Ten identical daily rows, days 0 through 9. -/
def quotes10 : List Quote :=
  (List.range 10).map (fun d => ⟨d, 1, 1, 1, 1, 1, 1, 1, 1, 1, 1⟩)

/-- C1: the claim says a single indicator failure never aborts the whole
pipeline run. Counterexample: in calculateMultiprocessing — the variant
the worker processes actually execute — a failing first indicator makes
the run return False immediately with no write, and the remaining
configured entry is never executed (its loop returns none), while the
async calculate loop does continue, counting one warning, keeping the
failing indicator's null placeholder column failcol in place under its raw
name, and applying the second entry (its mapped marker_out column is
present). -/
theorem mp_aborts_on_indicator_failure_cex :
    calculateMultiprocessing 1 quotes10 [eFail, eMark] = (false, none)
    ∧ calcLoopMP [eFail, eMark] (fun _ => []) = none
    ∧ (calcLoop [eFail, eMark] (fun _ => []) 0).2 = 1
    ∧ ((calcLoop [eFail, eMark] (fun _ => []) 0).1 0).lookup "marker_out"
        = some [some 1]
    ∧ ((calcLoop [eFail, eMark] (fun _ => []) 0).1 0).lookup "failcol"
        = some [none] := by
  refine ⟨rfl, rfl, rfl, rfl, rfl⟩

/-- C1 (amended): when a configured indicator function returns failure, a
warning is logged and the indicator's null placeholder columns stay in
place on its timeframe's frame — null-filled in place through the pandas
alias, under their raw unmapped names, with no drop and no rename — and
the two pipeline variants then differ: IndicatorFactory.calculate
continues with the remaining configured entries on those frames, while in
IndicatorFactory.calculateMultiprocessing the first failure makes the
whole run return False immediately with no write, skipping every
remaining configured entry. -/
theorem indicator_failure_paths (entries : List IndicatorEntry)
    (e : IndicatorEntry) (dfs : Fin 3 → Frame) (w : Nat)
    (df1 : Frame) (keys : List String)
    (h : e.run (dfs e.interval) = (false, df1, keys)) :
    calcLoop (e :: entries) dfs w
      = calcLoop entries (setFrame dfs e.interval df1) (w + 1)
    ∧ (∀ k, ((setFrame dfs e.interval df1) e.interval).lookup k
        = df1.lookup k)
    ∧ calcLoopMP (e :: entries) dfs = none := by
  have ha : applyEntry dfs e = (setFrame dfs e.interval df1, false) := by
    simp [applyEntry, h]
  refine ⟨?_, ?_, ?_⟩
  · show calcLoop entries (applyEntry dfs e).1
      (if (applyEntry dfs e).2 then w else w + 1)
      = calcLoop entries (setFrame dfs e.interval df1) (w + 1)
    rw [ha]
    rfl
  · intro k
    simp [setFrame]
  · show (if (applyEntry dfs e).2 then calcLoopMP entries (applyEntry dfs e).1
      else none) = none
    rw [ha]
    rfl

/-- Witness for the C1 amended theorem at the concrete failing entry eFail
followed by eMark on empty frames: the async loop continues on frames
where the null-filled failcol column is in place, and the MP loop aborts. -/
theorem indicator_failure_paths_witness :
    eFail.run ((fun _ => ([] : Frame)) eFail.interval)
      = (false, [("failcol", [none])], ["failcol"])
    ∧ calcLoop [eFail, eMark] (fun _ => []) 0
        = calcLoop [eMark]
            (setFrame (fun _ => []) eFail.interval [("failcol", [none])]) 1
    ∧ ((setFrame (fun _ => ([] : Frame)) eFail.interval
          [("failcol", [none])]) eFail.interval).lookup "failcol"
        = some [none]
    ∧ calcLoopMP [eFail, eMark] (fun _ => []) = none := by
  have h := indicator_failure_paths [eMark] eFail (fun _ => []) 0
    [("failcol", [none])] ["failcol"] rfl
  refine ⟨rfl, h.1, ?_, h.2.2⟩
  rw [h.2.1 "failcol"]
  rfl

/-- C9: for a security whose fetched ordered history has fewer than 10
rows, both pipeline variants return success immediately and perform no
write to indicator storage. -/
theorem short_history_no_write (secId : Int) (quotes : List Quote)
    (entries : List IndicatorEntry) (h : quotes.length < 10) :
    calculateMultiprocessing secId quotes entries = (true, none)
    ∧ calculate secId quotes entries = (true, none) := by
  constructor
  · rw [calculateMultiprocessing, if_pos h]
  · rw [calculate, if_pos h]

/-- Witness for C9 at a concrete 3-row history. -/
theorem short_history_no_write_witness :
    ([wq0, wq1, wq2].length < 10)
    ∧ calculateMultiprocessing 1 [wq0, wq1, wq2] [eFail, eMark] = (true, none)
    ∧ calculate 1 [wq0, wq1, wq2] [eFail, eMark] = (true, none) := by
  have h := short_history_no_write 1 [wq0, wq1, wq2] [eFail, eMark]
    (by norm_num)
  exact ⟨by norm_num, h.1, h.2⟩

end Ascentrade
